import Mathlib

/-!
Verification of the document-intelligence frontend and its specified backend
contracts.  Frontend operations (text selection, podcast request assembly,
chat error handling, file staging, API status handling, tag editing) are
embedded from the JavaScript sources.  Backend components that are not part
of the sources (retrieval engine, audio pipeline, mindmap builder cache) are
modelled from the specification, as marked on each definition.
-/

namespace Spec2Proof

/-- Model of JavaScript `String.prototype.trim`: drop leading and trailing
whitespace characters.  Defined over the character list so that all proofs
and witnesses compute. -/
def isJsWhitespace (c : Char) : Bool :=
  c = ' ' || c = '\t' || c = '\n' || c = '\r'

/-- `jsTrim s` removes leading and trailing whitespace from `s`,
modelling JavaScript `s.trim()`. -/
def jsTrim (s : String) : String :=
  String.mk (((s.data.dropWhile isJsWhitespace).reverse.dropWhile isJsWhitespace).reverse)

/-! ## C1: minimum query length in `handleTextSelection` (App.jsx) -/

/-- Shape of the response of `apiService.semanticSearch`; each list may be
absent from the JSON payload (`searchResults.snippets || []` in the source). -/
structure SearchResults where
  snippets : Option (List String)
  contradictions : Option (List String)
  alternate_viewpoints : Option (List String)
deriving DecidableEq

/-- The pieces of App.jsx component state that `handleTextSelection` reads or
writes. -/
structure AppState where
  selectedText : String
  isSearchingSnippets : Bool
  snippets : List String
  contradictions : List String
  alternateViewpoints : List String
  llmInsights : Option String
  podcastAudioId : Option String
  podcastAudioUrl : Option String
deriving DecidableEq

/-- Embedding of `handleTextSelection` from App.jsx.  The guard
`if (!text || text.trim().length < 3) return;` is modelled by the length test
on the trimmed text (an empty `text` is falsy and also has trimmed length 0).
The outcome of the single `apiService.semanticSearch` call is passed in as
`searchOutcome`; the returned boolean records whether that call was issued. -/
def handleTextSelection (s : AppState) (text : String)
    (searchOutcome : Except String SearchResults) : Bool × AppState :=
  if (jsTrim text).length < 3 then
    (false, s)
  else
    let s1 : AppState :=
      { s with
        selectedText := text
        isSearchingSnippets := true
        snippets := []
        contradictions := []
        alternateViewpoints := []
        llmInsights := none
        podcastAudioId := none
        podcastAudioUrl := none }
    match searchOutcome with
    | .ok r =>
        (true, { s1 with
          snippets := r.snippets.getD []
          contradictions := r.contradictions.getD []
          alternateViewpoints := r.alternate_viewpoints.getD []
          isSearchingSnippets := false })
    | .error _ =>
        (true, { s1 with
          snippets := []
          contradictions := []
          alternateViewpoints := []
          llmInsights := none
          isSearchingSnippets := false })

/-- C1: a selection whose trimmed length is under 3 makes `handleTextSelection`
return before the semantic-search call (no call issued, state untouched, so an
empty snippet list stays empty), while a trimmed length of 3 or more passes
the minimum-length threshold and the search call is issued. -/
theorem handleTextSelection_min_query_length (s : AppState) (text : String)
    (out : Except String SearchResults) :
    ((jsTrim text).length < 3 →
      handleTextSelection s text out = (false, s) ∧
      (s.snippets = [] → (handleTextSelection s text out).2.snippets = [])) ∧
    (3 ≤ (jsTrim text).length →
      (handleTextSelection s text out).1 = true) := by
  constructor
  · intro h
    refine ⟨by simp [handleTextSelection, h], ?_⟩
    intro hs
    simp [handleTextSelection, h, hs]
  · intro h
    have h3 : ¬ (jsTrim text).length < 3 := by omega
    cases out <;> simp [handleTextSelection, h3]

/-- Witness for C1 at the concrete selections `" ab "` (trimmed length 2) and
`"abc"` (trimmed length 3). -/
theorem handleTextSelection_min_query_length_witness :
    handleTextSelection
        ⟨"", false, [], [], [], none, none, none⟩ " ab " (.error "e") =
      (false, ⟨"", false, [], [], [], none, none, none⟩) ∧
    (handleTextSelection
        ⟨"", false, [], [], [], none, none, none⟩ "abc" (.error "e")).1 = true :=
  ⟨((handleTextSelection_min_query_length _ " ab " (.error "e")).1 (by decide)).1,
   (handleTextSelection_min_query_length _ "abc" (.error "e")).2 (by decide)⟩

/-! ## C2: missing insight categories default to empty lists (api.js `generatePodcast`) -/

/-- The LLM-produced insights object consumed by `generatePodcast` in
api.js; any of the four category fields may be absent from the object. -/
structure Insights where
  contradictory_viewpoints : Option (List String)
  alternate_applications : Option (List String)
  contextual_insights : Option (List String)
  cross_document_connections : Option (List String)
deriving DecidableEq

/-- The request body assembled by `generatePodcast` in api.js. -/
structure PodcastRequest where
  selected_text : String
  snippets : List String
  contradictions : List String
  alternate_viewpoints : List String
  contextual_insights : List String
  cross_document_connections : List String
deriving DecidableEq

/-- Embedding of the request assembly in `apiService.generatePodcast`
(api.js).  Each category is `insights.<field> || []` in the source; since a
JavaScript array (even an empty one) is truthy, that expression is exactly
`Option.getD`: the field's list when present, `[]` when absent. -/
def generatePodcastRequest (selectedText : String) (snippets : List String)
    (insights : Insights) : PodcastRequest :=
  { selected_text := selectedText
    snippets := snippets
    contradictions := insights.contradictory_viewpoints.getD []
    alternate_viewpoints := insights.alternate_applications.getD []
    contextual_insights := insights.contextual_insights.getD []
    cross_document_connections := insights.cross_document_connections.getD [] }

/-- C2: in the assembled podcast request each of the four categories equals
the corresponding list of the insights object when that field is present and
the empty list when it is absent; the assembly is total, so a missing
category never fails the call. -/
theorem generatePodcast_missing_category_defaults (t : String)
    (sn : List String) (i : Insights) :
    (∀ l, i.contradictory_viewpoints = some l →
      (generatePodcastRequest t sn i).contradictions = l) ∧
    (i.contradictory_viewpoints = none →
      (generatePodcastRequest t sn i).contradictions = []) ∧
    (∀ l, i.alternate_applications = some l →
      (generatePodcastRequest t sn i).alternate_viewpoints = l) ∧
    (i.alternate_applications = none →
      (generatePodcastRequest t sn i).alternate_viewpoints = []) ∧
    (∀ l, i.contextual_insights = some l →
      (generatePodcastRequest t sn i).contextual_insights = l) ∧
    (i.contextual_insights = none →
      (generatePodcastRequest t sn i).contextual_insights = []) ∧
    (∀ l, i.cross_document_connections = some l →
      (generatePodcastRequest t sn i).cross_document_connections = l) ∧
    (i.cross_document_connections = none →
      (generatePodcastRequest t sn i).cross_document_connections = []) := by
  refine ⟨?_, ?_, ?_, ?_, ?_, ?_, ?_, ?_⟩ <;>
    first
      | (intro l h; simp [generatePodcastRequest, h])
      | (intro h; simp [generatePodcastRequest, h])

/-- Witness for C2: an insights object carrying only a contradictions list
yields a request with that list and three empty lists. -/
theorem generatePodcast_missing_category_defaults_witness :
    (generatePodcastRequest "t" [] ⟨some ["a"], none, none, none⟩).contradictions
        = ["a"] ∧
    (generatePodcastRequest "t" [] ⟨some ["a"], none, none, none⟩).alternate_viewpoints
        = [] ∧
    (generatePodcastRequest "t" [] ⟨some ["a"], none, none, none⟩).contextual_insights
        = [] ∧
    (generatePodcastRequest "t" [] ⟨some ["a"], none, none, none⟩).cross_document_connections
        = [] :=
  ⟨(generatePodcast_missing_category_defaults "t" [] _).1 ["a"] rfl,
   (generatePodcast_missing_category_defaults "t" [] _).2.2.2.1 rfl,
   (generatePodcast_missing_category_defaults "t" [] _).2.2.2.2.2.1 rfl,
   (generatePodcast_missing_category_defaults "t" [] _).2.2.2.2.2.2.2 rfl⟩

/-! ## C5: chat backend failure handling in `handleQuery` (TalkToPdfModal.jsx) -/

/-- Sender of a conversation message. -/
inductive MsgType where
  | user
  | ai
deriving DecidableEq

/-- A conversation entry as built by `handleQuery`.  User and successful AI
messages carry no `isError` field in the source (undefined, hence falsy),
modelled as `false`. -/
structure ChatMessage where
  type : MsgType
  content : String
  isError : Bool
  relevantSections : List String
deriving DecidableEq

/-- Successful response body of the `/api/v1/chat` endpoint; the
`relevant_sections` field may be absent (`data.relevant_sections || []`). -/
structure ChatAnswer where
  answer : String
  relevant_sections : Option (List String)
deriving DecidableEq

/-- The fixed content of the error message `handleQuery` appends when the
chat call fails. -/
def chatErrorText : String :=
  "I encountered an error while processing your question. Please try again."

/-- Embedding of `handleQuery` from TalkToPdfModal.jsx.  An empty trimmed
query returns at once.  Otherwise the user message is appended, the backend
is called exactly once (`backend` is its outcome; a non-ok HTTP status, a
fetch failure and a JSON failure all land in the error branch), and either a
normal AI message or a single `isError := true` AI message is appended.  The
first component counts backend calls. -/
def handleQuery (conv : List ChatMessage) (queryText : String)
    (backend : Except String ChatAnswer) : Nat × List ChatMessage :=
  if jsTrim queryText = "" then
    (0, conv)
  else
    let conv1 := conv ++ [⟨.user, queryText, false, []⟩]
    match backend with
    | .ok d => (1, conv1 ++ [⟨.ai, d.answer, false, d.relevant_sections.getD []⟩])
    | .error _ => (1, conv1 ++ [⟨.ai, chatErrorText, true, []⟩])

/-- C5: when the chat backend call fails, `handleQuery` issues exactly one
backend call (no automatic retry), the conversation becomes the previous
messages followed by the user message and exactly one error-tagged AI
message, and in particular every previously recorded message (and the
appended user message) is preserved unchanged. -/
theorem handleQuery_failure_is_recoverable (conv : List ChatMessage)
    (q e : String) (hq : jsTrim q ≠ "") :
    (handleQuery conv q (.error e)).1 = 1 ∧
    (handleQuery conv q (.error e)).2 =
      conv ++ [⟨.user, q, false, []⟩, ⟨.ai, chatErrorText, true, []⟩] ∧
    ((handleQuery conv q (.error e)).2.filter (·.isError)).length =
      (conv.filter (·.isError)).length + 1 ∧
    (handleQuery conv q (.error e)).2.take conv.length = conv := by
  refine ⟨by simp [handleQuery, hq], ?_, ?_, ?_⟩
  · simp [handleQuery, hq]
  · simp [handleQuery, hq, List.filter_append]
  · simp [handleQuery, hq, List.take_append]

/-- Witness for C5 at a concrete conversation and failing backend call. -/
theorem handleQuery_failure_is_recoverable_witness :
    (handleQuery [⟨.user, "old", false, []⟩] "hi" (.error "boom")).1 = 1 ∧
    (handleQuery [⟨.user, "old", false, []⟩] "hi" (.error "boom")).2 =
      [⟨.user, "old", false, []⟩, ⟨.user, "hi", false, []⟩,
       ⟨.ai, chatErrorText, true, []⟩] :=
  ⟨(handleQuery_failure_is_recoverable [⟨.user, "old", false, []⟩] "hi" "boom"
      (by decide)).1,
   (handleQuery_failure_is_recoverable [⟨.user, "old", false, []⟩] "hi" "boom"
      (by decide)).2.1⟩

/-! ## C8: duplicate staged files are skipped by `handleFileUpload` (App.jsx) -/

/-- The file attributes `handleFileUpload` compares: name and byte size. -/
structure FileMeta where
  name : String
  size : Nat
deriving DecidableEq

/-- Embedding of `handleFileUpload` from App.jsx: the offered files are
filtered against the currently staged files by (name, size) and the
survivors are appended (`setStagedFiles(prev => [...prev, ...uniqueFiles])`).
The event/array normalization of the input is represented by taking the
offered files as a list. -/
def handleFileUpload (stagedFiles : List FileMeta) (newFiles : List FileMeta) :
    List FileMeta :=
  let uniqueFiles := newFiles.filter fun nf =>
    ! stagedFiles.any fun e => e.name = nf.name && e.size = nf.size
  stagedFiles ++ uniqueFiles

/-- C8: every file in the staged list after the call either was staged before
the call or has no (name, size) match among the previously staged files; and
when every offered file matches an already-staged one, the staged list is
unchanged. -/
theorem handleFileUpload_skips_duplicates (staged new : List FileMeta) :
    (∀ f ∈ handleFileUpload staged new,
      f ∈ staged ∨ ∀ e ∈ staged, ¬ (e.name = f.name ∧ e.size = f.size)) ∧
    ((∀ f ∈ new, ∃ e ∈ staged, e.name = f.name ∧ e.size = f.size) →
      handleFileUpload staged new = staged) := by
  constructor
  · intro f hf
    rcases List.mem_append.mp hf with h | h
    · exact Or.inl h
    · right
      have := List.of_mem_filter h
      intro e he hmatch
      simp only [Bool.not_eq_true', List.any_eq_false] at this
      have := this e he
      simp [hmatch.1, hmatch.2] at this
  · intro hall
    have : new.filter (fun nf =>
        ! staged.any fun e => e.name = nf.name && e.size = nf.size) = [] := by
      rw [List.filter_eq_nil_iff]
      intro f hf
      rcases hall f hf with ⟨e, he, h1, h2⟩
      simp only [Bool.not_eq_true', List.any_eq_false, not_forall, Bool.not_eq_false,
        List.any_eq_true]
      exact ⟨e, he, by simp [h1, h2]⟩
    simp [handleFileUpload, this]

/-- Witness for C8: re-offering an already-staged file (same name and size)
leaves the staged list unchanged, while a fresh file is appended. -/
theorem handleFileUpload_skips_duplicates_witness :
    handleFileUpload [⟨"a.pdf", 10⟩] [⟨"a.pdf", 10⟩] = [⟨"a.pdf", 10⟩] ∧
    handleFileUpload [⟨"a.pdf", 10⟩] [⟨"b.pdf", 7⟩] =
      [⟨"a.pdf", 10⟩, ⟨"b.pdf", 7⟩] :=
  ⟨(handleFileUpload_skips_duplicates [⟨"a.pdf", 10⟩] [⟨"a.pdf", 10⟩]).2
      (by decide),
   by decide⟩

/-! ## C9: HTTP status handling in `apiService` (api.js) -/

/-- An HTTP response as observed by the api.js operations: the `ok` flag, the
numeric status, and the result of `response.json()` — `none` models a body
on which JSON parsing fails (the rejection is rethrown by the catch block). -/
structure HttpResponse where
  ok : Bool
  status : Nat
  jsonBody : Option String
deriving DecidableEq

/-- Error text of a failed `response.json()` call. -/
def jsonParseErrorText : String := "Unexpected end of JSON input"

/-- Embedding of `apiService.semanticSearch` (api.js): a non-ok response
throws `Search failed: <status>`; otherwise the parsed JSON body is
returned, and a JSON parse failure is rethrown. -/
def semanticSearch (resp : HttpResponse) : Except String String :=
  if resp.ok = false then
    .error ("Search failed: " ++ toString resp.status)
  else
    match resp.jsonBody with
    | some j => .ok j
    | none => .error jsonParseErrorText

/-- Embedding of `apiService.getInsights` (api.js), with the same
status-checking shape as `semanticSearch`. -/
def getInsights (resp : HttpResponse) : Except String String :=
  if resp.ok = false then
    .error ("Insights failed: " ++ toString resp.status)
  else
    match resp.jsonBody with
    | some j => .ok j
    | none => .error jsonParseErrorText

/-- Counterexample to C9 as stated: a response with `ok` status whose body
fails JSON parsing makes `semanticSearch` throw rather than return, so the
operation does not return a parsed result for every ok response. -/
theorem apiService_ok_iff_counterexample :
    (HttpResponse.mk true 200 none).ok = true ∧
    (semanticSearch (HttpResponse.mk true 200 none)).isOk = false ∧
    (getInsights (HttpResponse.mk true 200 none)).isOk = false :=
  ⟨rfl, rfl, rfl⟩

/-- C9 (amended): a non-ok status always makes the operation throw an error
naming the status code and never return; the operation returns a parsed
result exactly when the status is ok and the body parses as JSON. -/
theorem apiService_status_handling (resp : HttpResponse) :
    (resp.ok = false →
      semanticSearch resp = .error ("Search failed: " ++ toString resp.status) ∧
      getInsights resp = .error ("Insights failed: " ++ toString resp.status)) ∧
    ((semanticSearch resp).isOk = true ↔
      resp.ok = true ∧ resp.jsonBody.isSome = true) ∧
    ((getInsights resp).isOk = true ↔
      resp.ok = true ∧ resp.jsonBody.isSome = true) ∧
    (∀ j, semanticSearch resp = .ok j ↔
      resp.ok = true ∧ resp.jsonBody = some j) ∧
    (∀ j, getInsights resp = .ok j ↔
      resp.ok = true ∧ resp.jsonBody = some j) := by
  obtain ⟨ok, status, body⟩ := resp
  refine ⟨?_, ?_, ?_, ?_, ?_⟩ <;>
    cases ok <;> cases body <;>
      simp [semanticSearch, getInsights, Except.isOk, Except.toBool]

/-- Witness for C9 (amended) at a concrete non-ok response and a concrete ok
response with parseable body. -/
theorem apiService_status_handling_witness :
    semanticSearch ⟨false, 500, none⟩ = .error "Search failed: 500" ∧
    getInsights ⟨false, 500, none⟩ = .error "Insights failed: 500" ∧
    semanticSearch ⟨true, 200, some "body"⟩ = .ok "body" :=
  ⟨((apiService_status_handling ⟨false, 500, none⟩).1 rfl).1,
   ((apiService_status_handling ⟨false, 500, none⟩).1 rfl).2,
   ((apiService_status_handling ⟨true, 200, some "body"⟩).2.2.2.1 "body").mpr
      ⟨rfl, rfl⟩⟩

/-! ## C10: tag-editing operations of the tag management modal -/

/-- Embedding of `handleAddTag` (TagManagementModal.jsx): the new tag is
trimmed (local `trimmedTag`, inlined here);
`if (trimmedTag && !tags.includes(trimmedTag))` appends it — an empty string
is falsy, so the append happens only for a non-empty, not-yet-present
trimmed tag. -/
def handleAddTag (tags : List String) (newTag : String) : List String :=
  if jsTrim newTag ≠ "" ∧ jsTrim newTag ∉ tags then tags ++ [jsTrim newTag]
  else tags

/-- Embedding of `handleRemoveTag` (TagManagementModal.jsx):
`tags.filter(tag => tag !== tagToRemove)`. -/
def handleRemoveTag (tags : List String) (tagToRemove : String) : List String :=
  tags.filter fun tag => tag ≠ tagToRemove

/-- Embedding of `handleSuggestedTagClick` (TagManagementModal.jsx):
`if (!tags.includes(suggestedTag))` appends the suggested tag; there is no
emptiness check on the suggested tag. -/
def handleSuggestedTagClick (tags : List String) (suggestedTag : String) :
    List String :=
  if suggestedTag ∉ tags then tags ++ [suggestedTag] else tags

/-- Counterexample to C10 as stated: starting from the duplicate-free,
empty-tag-free list `[]`, clicking an empty suggested tag introduces the
empty tag, so not every tag-editing operation avoids empty tags. -/
theorem tagModal_empty_tag_counterexample :
    ([] : List String).Nodup ∧ "" ∉ ([] : List String) ∧
    handleSuggestedTagClick [] "" = [""] ∧
    "" ∈ handleSuggestedTagClick [] "" := by
  refine ⟨List.nodup_nil, by simp, ?_, ?_⟩ <;> simp [handleSuggestedTagClick]

/-- C10 (amended): from a duplicate-free tag list, all three operations
preserve duplicate-freedom; `handleAddTag` appends the trimmed tag exactly
when it is non-empty and not present and never introduces an empty tag;
`handleSuggestedTagClick` appends exactly when the tag is not present (with
no emptiness guard); `handleRemoveTag` removes every occurrence of the given
tag. -/
theorem tagModal_tag_invariants (tags : List String) (s r : String)
    (hd : tags.Nodup) :
    (handleAddTag tags s).Nodup ∧
    ("" ∉ tags → "" ∉ handleAddTag tags s) ∧
    (jsTrim s ≠ "" → jsTrim s ∉ tags →
      handleAddTag tags s = tags ++ [jsTrim s]) ∧
    (handleSuggestedTagClick tags s).Nodup ∧
    (s ∉ tags → handleSuggestedTagClick tags s = tags ++ [s]) ∧
    (handleRemoveTag tags r).Nodup ∧
    r ∉ handleRemoveTag tags r := by
  refine ⟨?_, ?_, ?_, ?_, ?_, ?_, ?_⟩
  · unfold handleAddTag
    split
    · next h => simp [List.nodup_append, hd, h.2]
    · exact hd
  · intro hne
    unfold handleAddTag
    split
    · next h =>
      simp only [List.mem_append, List.mem_singleton]
      rintro (hc | hc)
      · exact hne hc
      · exact h.1 hc.symm
    · exact hne
  · intro h1 h2
    simp [handleAddTag, h1, h2]
  · unfold handleSuggestedTagClick
    split
    · next h => simp [List.nodup_append, hd, h]
    · exact hd
  · intro h
    simp [handleSuggestedTagClick, h]
  · exact hd.filter _
  · intro hc
    have := List.of_mem_filter hc
    simp at this

/-- Witness for C10 (amended) at concrete tag lists. -/
theorem tagModal_tag_invariants_witness :
    (handleAddTag ["x"] " y ").Nodup ∧
    "" ∉ handleAddTag ["x"] " y " ∧
    handleAddTag ["x"] " y " = ["x", "y"] ∧
    "x" ∉ handleRemoveTag ["x"] "x" :=
  ⟨(tagModal_tag_invariants ["x"] " y " "x" (by decide)).1,
   (tagModal_tag_invariants ["x"] " y " "x" (by decide)).2.1 (by decide),
   (tagModal_tag_invariants ["x"] " y " "x" (by decide)).2.2.1 (by decide)
      (by decide),
   (tagModal_tag_invariants ["x"] " y " "x" (by decide)).2.2.2.2.2.2⟩

/-! ## C3: retrieval `search` contract (spec-modelled Retrieval Engine) -/

/-- Modelled from the spec: a stored section of the backend section store
(the backend Retrieval Engine and Embedding Index of spec sections 4.2 and
4.3 are not among the sources; only their HTTP callers are).  A section
carries its ordinal index and text. -/
structure DocSection where
  ordinal : Nat
  text : String
deriving DecidableEq

/-- Modelled from the spec: a retrieval result pairing a section with a
similarity score and the query it was matched against (spec section 3,
"Snippet").  Scores are modelled as rationals. -/
structure Snippet where
  ordinal : Nat
  score : ℚ
  query : String
deriving DecidableEq

/-- Ranking order of the spec's retrieval contract: higher similarity score
first, ties broken by the original section ordinal, earlier wins (spec
section 4.2). -/
def rankRel (a b : Snippet) : Prop :=
  b.score < a.score ∨ (a.score = b.score ∧ a.ordinal ≤ b.ordinal)

instance (a b : Snippet) : Decidable (rankRel a b) := by
  unfold rankRel; infer_instance

instance : IsTotal Snippet rankRel := by
  constructor
  intro a b
  rcases lt_trichotomy a.score b.score with h | h | h
  · exact Or.inr (Or.inl h)
  · rcases le_total a.ordinal b.ordinal with ho | ho
    · exact Or.inl (Or.inr ⟨h, ho⟩)
    · exact Or.inr (Or.inr ⟨h.symm, ho⟩)
  · exact Or.inl (Or.inl h)

instance : IsTrans Snippet rankRel := by
  constructor
  intro a b c hab hbc
  rcases hab with h1 | ⟨e1, o1⟩ <;> rcases hbc with h2 | ⟨e2, o2⟩
  · exact Or.inl (h2.trans h1)
  · exact Or.inl (e2 ▸ h1)
  · exact Or.inl (by rw [e1]; exact h2)
  · exact Or.inr ⟨e1.trans e2, o1.trans o2⟩

/-- Modelled from the spec: `search(queryText, k, documentIds?)` of the
Retrieval Engine (spec section 4.3).  A query of trimmed length under 3
returns the empty sequence without scoring anything; otherwise every corpus
section is scored against the query by the embedding similarity `scorer`,
the snippets are ordered by descending score with ordinal tie-break, and the
list is truncated to `k`. -/
def search (queryText : String) (k : Nat) (corpus : List DocSection)
    (scorer : String → String → ℚ) : List Snippet :=
  if (jsTrim queryText).length < 3 then []
  else
    ((corpus.map fun s => Snippet.mk s.ordinal (scorer queryText s.text) queryText).insertionSort
        rankRel).take k

/-- Strict descent of the score sequence of a snippet list. -/
def strictlyDescendingScores (l : List Snippet) : Prop :=
  l.Pairwise fun a b => b.score < a.score

instance (l : List Snippet) : Decidable (strictlyDescendingScores l) := by
  unfold strictlyDescendingScores; infer_instance

/-- Counterexample to C3 as stated: two sections with identical text receive
identical similarity scores, both are returned (tie broken by ordinal), and
the result is not strictly descending by score. -/
theorem search_strictness_counterexample :
    search "abc" 2 [⟨0, "t"⟩, ⟨1, "t"⟩] (fun _ _ => 1) =
      [⟨0, 1, "abc"⟩, ⟨1, 1, "abc"⟩] ∧
    ¬ strictlyDescendingScores
        (search "abc" 2 [⟨0, "t"⟩, ⟨1, "t"⟩] (fun _ _ => 1)) := by
  constructor
  · rfl
  · intro h
    rw [show search "abc" 2 [⟨0, "t"⟩, ⟨1, "t"⟩] (fun _ _ => 1) =
        [⟨0, 1, "abc"⟩, ⟨1, 1, "abc"⟩] from rfl] at h
    rcases List.pairwise_cons.mp h with ⟨h1, -⟩
    exact absurd (h1 _ (List.mem_singleton.mpr rfl)) (lt_irrefl 1)

/-- C3 (amended): the `search` result is ordered by non-increasing similarity
score (ties broken by earlier ordinal, per the ranking relation) and
truncated to at most `k` entries; a query of trimmed length under 3 and an
empty corpus both give the empty sequence. -/
theorem search_ranked_and_truncated (q : String) (k : Nat)
    (corpus : List DocSection) (scorer : String → String → ℚ) :
    (search q k corpus scorer).length ≤ k ∧
    (search q k corpus scorer).Sorted rankRel ∧
    (search q k corpus scorer).Sorted (fun a b => b.score ≤ a.score) ∧
    ((jsTrim q).length < 3 → search q k corpus scorer = []) ∧
    (corpus = [] → search q k corpus scorer = []) := by
  unfold search
  split
  · simp
  · next hlen =>
    have hs : ((corpus.map fun s =>
        Snippet.mk s.ordinal (scorer q s.text) q).insertionSort rankRel).Sorted rankRel :=
      List.sorted_insertionSort rankRel _
    have htake : (((corpus.map fun s =>
        Snippet.mk s.ordinal (scorer q s.text) q).insertionSort rankRel).take k).Sorted
          rankRel :=
      hs.sublist (List.take_sublist k _)
    refine ⟨List.length_take_le k _, htake, ?_, fun h => absurd h hlen, ?_⟩
    · exact htake.imp fun hr => by
        rcases hr with h | ⟨h, -⟩
        · exact le_of_lt h
        · exact le_of_eq h.symm
    · intro h
      subst h
      simp [List.insertionSort]

/-- Witness for C3 (amended) at a tiny concrete corpus. -/
theorem search_ranked_and_truncated_witness :
    (search "query" 1 [⟨0, "a"⟩, ⟨1, "b"⟩] (fun _ t => if t = "b" then 1 else 0)).length
        ≤ 1 ∧
    search "x" 5 [⟨0, "a"⟩] (fun _ _ => 1) = [] :=
  ⟨(search_ranked_and_truncated "query" 1 [⟨0, "a"⟩, ⟨1, "b"⟩]
      (fun _ t => if t = "b" then 1 else 0)).1,
   (search_ranked_and_truncated "x" 5 [⟨0, "a"⟩] (fun _ _ => 1)).2.2.2.1
      (by decide)⟩

/-! ## C4: audio `synthesize` idempotence (spec-modelled Audio Pipeline) -/

/-- Modelled from the spec: normalization of the script text before hashing
(spec section 4.6, "normalized script text"); the backend Audio Pipeline is
not among the sources.  Normalization is modelled as whitespace trimming. -/
def normalizeScript (s : String) : String := jsTrim s

/-- Modelled from the spec: an audio artifact (spec section 3).  The content
hash over (normalized script, voice configuration) is modelled as that pair
itself, i.e. a collision-free hash. -/
structure AudioArtifact where
  contentHash : String × String
  audioData : List Nat
  duration : Nat
deriving DecidableEq

/-- Modelled from the spec: the shared artifact cache keyed by content hash
plus a counter of speech-backend synthesis calls. -/
structure AudioPipelineState where
  cache : List ((String × String) × AudioArtifact)
  backendCalls : Nat
deriving DecidableEq

/-- Lookup of a cached artifact by content hash. -/
def lookupArtifact (cache : List ((String × String) × AudioArtifact))
    (h : String × String) : Option AudioArtifact :=
  (cache.find? fun e => e.1 = h).map (·.2)

/-- Modelled from the spec: `synthesize(script, voiceConfig)` (spec section
4.6).  The content hash over the normalized script and the voice
configuration is computed before calling the speech backend; a cache hit
returns the existing artifact with zero new synthesis calls, a miss runs the
backend once (`backend` maps normalized text and voice to audio bytes and
duration) and stores the artifact under its hash. -/
def synthesize (backend : String → String → List Nat × Nat)
    (st : AudioPipelineState) (script voiceConfig : String) :
    AudioArtifact × AudioPipelineState :=
  let h := (normalizeScript script, voiceConfig)
  match lookupArtifact st.cache h with
  | some a => (a, st)
  | none =>
      let out := backend (normalizeScript script) voiceConfig
      let a : AudioArtifact := ⟨h, out.1, out.2⟩
      (a, ⟨(h, a) :: st.cache, st.backendCalls + 1⟩)

/-- C4: two `synthesize` calls with identical normalized script text and
identical voice configuration return the same artifact — same duration and
same content hash — and, when the hash is not yet cached, only the first
call triggers the speech backend: the second call makes zero new synthesis
calls. -/
theorem synthesize_idempotent_by_content_hash
    (backend : String → String → List Nat × Nat) (st : AudioPipelineState)
    (s1 s2 v : String) (hn : normalizeScript s1 = normalizeScript s2)
    (hfresh : lookupArtifact st.cache (normalizeScript s1, v) = none) :
    (synthesize backend st s1 v).2.backendCalls = st.backendCalls + 1 ∧
    (synthesize backend (synthesize backend st s1 v).2 s2 v).2.backendCalls =
      (synthesize backend st s1 v).2.backendCalls ∧
    (synthesize backend (synthesize backend st s1 v).2 s2 v).1 =
      (synthesize backend st s1 v).1 ∧
    (synthesize backend (synthesize backend st s1 v).2 s2 v).1.duration =
      (synthesize backend st s1 v).1.duration ∧
    (synthesize backend (synthesize backend st s1 v).2 s2 v).1.contentHash =
      (synthesize backend st s1 v).1.contentHash := by
  have h1 : synthesize backend st s1 v =
      (⟨(normalizeScript s1, v), (backend (normalizeScript s1) v).1,
          (backend (normalizeScript s1) v).2⟩,
        ⟨((normalizeScript s1, v),
          ⟨(normalizeScript s1, v), (backend (normalizeScript s1) v).1,
            (backend (normalizeScript s1) v).2⟩) :: st.cache,
          st.backendCalls + 1⟩) := by
    simp [synthesize, hfresh]
  have h2 : synthesize backend (synthesize backend st s1 v).2 s2 v =
      ((synthesize backend st s1 v).1, (synthesize backend st s1 v).2) := by
    rw [h1]
    simp [synthesize, lookupArtifact, List.find?, ← hn]
  rw [h2, h1]
  exact ⟨rfl, rfl, rfl, rfl, rfl⟩

/-- Witness for C4: synthesizing `" hello "` and then `"hello"` (identical
normalized text) with the same voice from an empty cache yields one backend
call, then a cache hit returning the identical artifact. -/
theorem synthesize_idempotent_by_content_hash_witness :
    (synthesize (fun _ _ => ([1, 2, 3], 7)) ⟨[], 0⟩ " hello " "v").2.backendCalls
        = 1 ∧
    (synthesize (fun _ _ => ([1, 2, 3], 7))
        (synthesize (fun _ _ => ([1, 2, 3], 7)) ⟨[], 0⟩ " hello " "v").2
        "hello" "v").2.backendCalls = 1 ∧
    (synthesize (fun _ _ => ([1, 2, 3], 7))
        (synthesize (fun _ _ => ([1, 2, 3], 7)) ⟨[], 0⟩ " hello " "v").2
        "hello" "v").1 =
      (synthesize (fun _ _ => ([1, 2, 3], 7)) ⟨[], 0⟩ " hello " "v").1 := by
  have h := synthesize_idempotent_by_content_hash (fun _ _ => ([1, 2, 3], 7))
    ⟨[], 0⟩ " hello " "hello" "v" (by decide) rfl
  exact ⟨h.1, by rw [h.2.1, h.1], h.2.2.1⟩

/-! ## C7: at most one mindmap build in flight per key (spec-modelled) -/

/-- Modelled from the spec: the mindmap cache key
(document-or-text, maxSections, phrasesPerSection) of spec section 3. -/
abbrev MindmapKey := String × Nat × Nat

/-- Modelled from the spec: the artifact cache plus single-flight in-flight
registry per key (spec sections 5 and 9); the backend Mindmap Builder and
its cache are not among the sources.  `builds` counts started underlying
build computations. -/
structure BuildRegistry where
  inflight : List MindmapKey
  cache : List (MindmapKey × String)
  builds : Nat
deriving DecidableEq

/-- Modelled from the spec: arrival of a mindmap generation request for a
key.  A cached key is served from the cache and an in-flight key coalesces
onto the running computation; only otherwise is a new build started and the
key marked in flight. -/
def requestBuild (st : BuildRegistry) (key : MindmapKey) : BuildRegistry :=
  if (st.cache.find? fun e => e.1 = key).isSome ∨ key ∈ st.inflight then st
  else { st with inflight := key :: st.inflight, builds := st.builds + 1 }

/-- Modelled from the spec: completion of the build for a key — the result is
cached and the key leaves the in-flight registry. -/
def completeBuild (st : BuildRegistry) (key : MindmapKey) (result : String) :
    BuildRegistry :=
  { st with inflight := st.inflight.erase key, cache := (key, result) :: st.cache }

/-- `n` request arrivals for the same key with no intervening completion:
the interleaving of `n` concurrent duplicate requests. -/
def requestN (st : BuildRegistry) (key : MindmapKey) : Nat → BuildRegistry
  | 0 => st
  | n + 1 => requestN (requestBuild st key) key n

/-- A request for a key that is already in flight changes nothing: it
coalesces onto the running computation. -/
theorem requestBuild_inflight (st : BuildRegistry) (key : MindmapKey)
    (h : key ∈ st.inflight) : requestBuild st key = st := by
  simp [requestBuild, h]

/-- C7: for a key that is neither cached nor in flight, `n ≥ 1` concurrent
requests for that key start exactly one underlying build computation; the
key is in flight exactly once afterwards, so at most one build per key is in
flight. -/
theorem mindmap_requests_single_flight (st : BuildRegistry) (key : MindmapKey)
    (n : Nat) (hfl : key ∉ st.inflight)
    (hc : (st.cache.find? fun e => e.1 = key) = none) (hn : 1 ≤ n) :
    (requestN st key n).builds = st.builds + 1 ∧
    (requestN st key n).inflight.count key = st.inflight.count key + 1 := by
  obtain ⟨m, rfl⟩ : ∃ m, n = m + 1 := ⟨n - 1, by omega⟩
  have hstep : requestBuild st key =
      { st with inflight := key :: st.inflight, builds := st.builds + 1 } := by
    simp [requestBuild, hfl, hc]
  have hsat : ∀ (k : Nat) (st' : BuildRegistry), key ∈ st'.inflight →
      requestN st' key k = st' := by
    intro k
    induction k with
    | zero => intro st' _; rfl
    | succ k ih =>
        intro st' h
        rw [requestN, requestBuild_inflight st' key h]
        exact ih st' h
  rw [requestN, hstep, hsat m _ (by simp)]
  refine ⟨rfl, ?_⟩
  simp [List.count_cons]

/-- Witness for C7: five concurrent requests for a fresh key start exactly
one build. -/
theorem mindmap_requests_single_flight_witness :
    (requestN ⟨[], [], 0⟩ ("doc1", 12, 6) 5).builds = 1 ∧
    (requestN ⟨[], [], 0⟩ ("doc1", 12, 6) 5).inflight.count ("doc1", 12, 6) = 1 :=
  mindmap_requests_single_flight ⟨[], [], 0⟩ ("doc1", 12, 6) 5
    (by simp) rfl (by omega)

/-! ## C6: the two mindmap serializations re-parse to the same node data
(spec-modelled Mindmap Builder) -/

/-- Modelled from the spec: a mindmap node, a section-derived title with its
keyphrase list (spec section 3); the backend mindmap service that produces
the Mermaid and FreeMind serializations is not among the sources. -/
structure MindNode where
  title : String
  phrases : List String
deriving DecidableEq

/-- Modelled from the spec: a mindmap, root title plus ordered node list. -/
structure Mindmap where
  rootTitle : String
  nodes : List MindNode
deriving DecidableEq

/-- `dropPref p l` strips the prefix `p` from `l`, or fails. -/
def dropPref : List Char → List Char → Option (List Char)
  | [], l => some l
  | _ :: _, [] => none
  | p :: ps, c :: cs => if p = c then dropPref ps cs else none

theorem dropPref_append (p r : List Char) : dropPref p (p ++ r) = some r := by
  induction p with
  | nil => rfl
  | cons c cs ih => simp [dropPref, ih]

theorem dropPref_eq_none_iff (p l : List Char) :
    dropPref p l = none ↔ ¬ p <+: l := by
  induction p generalizing l with
  | nil => simp [dropPref]
  | cons c cs ih =>
    cases l with
    | nil => simp [dropPref]
    | cons d ds =>
      by_cases h : c = d
      · subst h
        simp [dropPref, List.cons_prefix_cons, ih]
      · simp [dropPref, h, List.cons_prefix_cons]

/-- `dropSuf s l` strips the suffix `s` from `l`, or fails. -/
def dropSuf (s l : List Char) : Option (List Char) :=
  (dropPref s.reverse l.reverse).map List.reverse

theorem dropSuf_append (s r : List Char) : dropSuf s (r ++ s) = some r := by
  simp [dropSuf, List.reverse_append, dropPref_append]

/-! Format A, Mermaid (`.mmd`): a `mindmap` header, an indented
`root((title))` line, one 4-space-indented line per node title and one
6-space-indented line per keyphrase. -/

def mmHeader : List Char := ['m', 'i', 'n', 'd', 'm', 'a', 'p']

def mmRootOpen : List Char := [' ', ' ', 'r', 'o', 'o', 't', '(', '(']

def mmRootClose : List Char := [')', ')']

def spaces4 : List Char := [' ', ' ', ' ', ' ']

def spaces6 : List Char := [' ', ' ', ' ', ' ', ' ', ' ']

/-- Modelled from the spec: the Mermaid lines of one node. -/
def mermaidNodeLines (n : MindNode) : List (List Char) :=
  (spaces4 ++ n.title.data) :: n.phrases.map fun p => spaces6 ++ p.data

/-- Modelled from the spec: the Mermaid serialization of a mindmap, as a
list of lines of characters. -/
def renderMermaid (m : Mindmap) : List (List Char) :=
  mmHeader :: (mmRootOpen ++ m.rootTitle.data ++ mmRootClose) ::
    m.nodes.flatMap mermaidNodeLines

/-- Re-parser for Mermaid phrase lines: the longest run of 6-space-indented
lines, together with the remaining lines. -/
def takePhrasesM : List (List Char) → List String × List (List Char)
  | [] => ([], [])
  | l :: ls =>
    match dropPref spaces6 l with
    | some p => (String.mk p :: (takePhrasesM ls).1, (takePhrasesM ls).2)
    | none => ([], l :: ls)

theorem takePhrasesM_rest_length (ls : List (List Char)) :
    (takePhrasesM ls).2.length ≤ ls.length := by
  induction ls with
  | nil => exact le_refl _
  | cons l ls ih =>
    cases h : dropPref spaces6 l with
    | some p =>
      simp only [takePhrasesM, h]
      exact ih.trans (Nat.le_succ _)
    | none => simp [takePhrasesM, h]

/-- Re-parser for the Mermaid format: a 6-space line is a phrase, a 4-space
line starts a node collecting the phrase lines after it, anything else
(header, root line) is skipped. -/
def parseMermaidNodes : List (List Char) → List MindNode
  | [] => []
  | l :: ls =>
    match dropPref spaces6 l with
    | some _ => parseMermaidNodes ls
    | none =>
      match dropPref spaces4 l with
      | some t =>
          ⟨String.mk t, (takePhrasesM ls).1⟩ :: parseMermaidNodes (takePhrasesM ls).2
      | none => parseMermaidNodes ls
termination_by lines => lines.length
decreasing_by
  all_goals
    have := takePhrasesM_rest_length ls
    simp only [List.length_cons]
    omega

/-- Re-parsing the Mermaid serialization. -/
def parseMermaid (lines : List (List Char)) : List MindNode :=
  parseMermaidNodes lines

theorem stringMk_data (s : String) : String.mk s.data = s := rfl

/-- Head of the line list is not a 6-space phrase line. -/
def noPhraseHeadM : List (List Char) → Prop
  | [] => True
  | l :: _ => dropPref spaces6 l = none

theorem takePhrasesM_spec (ps : List String) (rest : List (List Char))
    (hrest : noPhraseHeadM rest) :
    takePhrasesM ((ps.map fun p => spaces6 ++ p.data) ++ rest) = (ps, rest) := by
  induction ps with
  | nil =>
    cases rest with
    | nil => rfl
    | cons l ls =>
      have h : dropPref spaces6 l = none := hrest
      simp [takePhrasesM, h]
  | cons p ps ih =>
    simp [takePhrasesM, dropPref_append, ih, stringMk_data]

theorem noPhraseHeadM_flatMap (ns : List MindNode)
    (h : ∀ n ∈ ns, dropPref spaces6 (spaces4 ++ n.title.data) = none) :
    noPhraseHeadM (ns.flatMap mermaidNodeLines) := by
  cases ns with
  | nil => trivial
  | cons n ns =>
    show dropPref spaces6 (spaces4 ++ n.title.data) = none
    exact h n (by simp)

theorem parseMermaidNodes_flatMap (nodes : List MindNode)
    (h : ∀ n ∈ nodes, dropPref spaces6 (spaces4 ++ n.title.data) = none) :
    parseMermaidNodes (nodes.flatMap mermaidNodeLines) = nodes := by
  induction nodes with
  | nil => simp [parseMermaidNodes]
  | cons n ns ih =>
    have hline : dropPref spaces6 (spaces4 ++ n.title.data) = none :=
      h n (by simp)
    have hrest := takePhrasesM_spec n.phrases (ns.flatMap mermaidNodeLines)
      (noPhraseHeadM_flatMap ns fun x hx => h x (by simp [hx]))
    rw [List.flatMap_cons, mermaidNodeLines, List.cons_append, parseMermaidNodes,
      hline]
    simp only [List.append_assoc] at hrest ⊢
    rw [dropPref_append, hrest]
    simp [stringMk_data, ih fun x hx => h x (by simp [hx])]

/-- A title that does not begin with two spaces yields a node line that is
not mistaken for a phrase line. -/
theorem dropPref_spaces6_title (t : String) (h : t.data.take 2 ≠ [' ', ' ']) :
    dropPref spaces6 (spaces4 ++ t.data) = none := by
  rw [dropPref_eq_none_iff]
  intro hpre
  have e : spaces6 = spaces4 ++ [' ', ' '] := rfl
  rw [e] at hpre
  have h2 : ([' ', ' '] : List Char) <+: t.data :=
    (List.prefix_append_right_inj spaces4).mp hpre
  rw [List.prefix_iff_eq_take] at h2
  exact h h2.symm

/-! Format B, FreeMind (`.mm`): an XML map whose root node wraps one
self-contained `<node TEXT="...">...</node>` element per section, with one
self-closing `<node TEXT="..."/>` element per keyphrase. -/

def fmOpen : List Char :=
  ['<', 'n', 'o', 'd', 'e', ' ', 'T', 'E', 'X', 'T', '=', '"']

def fmCloseNode : List Char := ['"', '>']

def fmClosePhrase : List Char := ['"', '/', '>']

def fmEndNode : List Char := ['<', '/', 'n', 'o', 'd', 'e', '>']

def fmEndMap : List Char := ['<', '/', 'm', 'a', 'p', '>']

def fmHeader : List Char := ['<', 'm', 'a', 'p', '>']

/-- Opening line of a FreeMind node element. -/
def fmStartLine (t : String) : List Char := fmOpen ++ t.data ++ fmCloseNode

/-- Self-closing FreeMind element of a keyphrase. -/
def fmPhraseLine (p : String) : List Char := fmOpen ++ p.data ++ fmClosePhrase

/-- Modelled from the spec: the FreeMind lines of one node. -/
def freemindNodeLines (n : MindNode) : List (List Char) :=
  fmStartLine n.title :: (n.phrases.map fmPhraseLine ++ [fmEndNode])

/-- Modelled from the spec: the FreeMind serialization of a mindmap, as a
list of lines of characters. -/
def renderFreeMind (m : Mindmap) : List (List Char) :=
  fmHeader :: fmStartLine m.rootTitle ::
    (m.nodes.flatMap freemindNodeLines ++ [fmEndNode, fmEndMap])

/-- Recognize a self-closing keyphrase element and extract its text. -/
def parsePhraseLine (l : List Char) : Option (List Char) :=
  (dropPref fmOpen l).bind fun r => dropSuf fmClosePhrase r

/-- Recognize a node opening element and extract its title. -/
def parseStartLine (l : List Char) : Option (List Char) :=
  (dropPref fmOpen l).bind fun r => dropSuf fmCloseNode r

theorem parsePhraseLine_phrase (p : String) :
    parsePhraseLine (fmPhraseLine p) = some p.data := by
  simp [parsePhraseLine, fmPhraseLine, List.append_assoc, dropPref_append,
    dropSuf_append]

theorem parsePhraseLine_start (t : String) :
    parsePhraseLine (fmStartLine t) = none := by
  simp only [parsePhraseLine, fmStartLine, List.append_assoc, dropPref_append,
    Option.bind_some]
  simp [dropSuf, fmClosePhrase, fmCloseNode, List.reverse_append, dropPref]

theorem parseStartLine_start (t : String) :
    parseStartLine (fmStartLine t) = some t.data := by
  simp [parseStartLine, fmStartLine, List.append_assoc, dropPref_append,
    dropSuf_append]

theorem parsePhraseLine_endNode : parsePhraseLine fmEndNode = none := rfl

theorem parsePhraseLine_endMap : parsePhraseLine fmEndMap = none := rfl

theorem parseStartLine_endNode : parseStartLine fmEndNode = none := rfl

theorem parseStartLine_endMap : parseStartLine fmEndMap = none := rfl

/-- Re-parser for FreeMind phrase elements: the longest run of self-closing
keyphrase elements, together with the remaining lines. -/
def takePhrasesF : List (List Char) → List String × List (List Char)
  | [] => ([], [])
  | l :: ls =>
    match parsePhraseLine l with
    | some p => (String.mk p :: (takePhrasesF ls).1, (takePhrasesF ls).2)
    | none => ([], l :: ls)

theorem takePhrasesF_rest_length (ls : List (List Char)) :
    (takePhrasesF ls).2.length ≤ ls.length := by
  induction ls with
  | nil => exact le_refl _
  | cons l ls ih =>
    cases h : parsePhraseLine l with
    | some p =>
      simp only [takePhrasesF, h]
      exact ih.trans (Nat.le_succ _)
    | none => simp [takePhrasesF, h]

/-- Re-parser for the FreeMind format: a self-closing element is a phrase, a
node opening element starts a node collecting the phrase elements after it,
anything else (header, closing tags) is skipped. -/
def parseFreeMindNodes : List (List Char) → List MindNode
  | [] => []
  | l :: ls =>
    match parsePhraseLine l with
    | some _ => parseFreeMindNodes ls
    | none =>
      match parseStartLine l with
      | some t =>
          ⟨String.mk t, (takePhrasesF ls).1⟩ :: parseFreeMindNodes (takePhrasesF ls).2
      | none => parseFreeMindNodes ls
termination_by lines => lines.length
decreasing_by
  all_goals
    have := takePhrasesF_rest_length ls
    simp only [List.length_cons]
    omega

/-- Re-parsing the FreeMind serialization: the first two lines are the map
header and the root element, the rest are the node elements. -/
def parseFreeMind : List (List Char) → List MindNode
  | _ :: _ :: rest => parseFreeMindNodes rest
  | _ => []

/-- Head of the line list is not a self-closing phrase element. -/
def noPhraseHeadF : List (List Char) → Prop
  | [] => True
  | l :: _ => parsePhraseLine l = none

theorem takePhrasesF_spec (ps : List String) (rest : List (List Char))
    (hrest : noPhraseHeadF rest) :
    takePhrasesF (ps.map fmPhraseLine ++ rest) = (ps, rest) := by
  induction ps with
  | nil =>
    cases rest with
    | nil => rfl
    | cons l ls =>
      have h : parsePhraseLine l = none := hrest
      simp [takePhrasesF, h]
  | cons p ps ih =>
    simp [takePhrasesF, parsePhraseLine_phrase, ih, stringMk_data]

theorem parseFreeMindNodes_cons (l : List Char) (ls : List (List Char)) :
    parseFreeMindNodes (l :: ls) =
      match parsePhraseLine l with
      | some _ => parseFreeMindNodes ls
      | none =>
        match parseStartLine l with
        | some t =>
            ⟨String.mk t, (takePhrasesF ls).1⟩ ::
              parseFreeMindNodes (takePhrasesF ls).2
        | none => parseFreeMindNodes ls := by
  rw [parseFreeMindNodes.eq_def]

theorem parseFreeMindNodes_flatMap (nodes : List MindNode)
    (tail : List (List Char)) :
    parseFreeMindNodes (nodes.flatMap freemindNodeLines ++ tail) =
      nodes ++ parseFreeMindNodes tail := by
  induction nodes with
  | nil => simp
  | cons n ns ih =>
    have hrest := takePhrasesF_spec n.phrases
      (fmEndNode :: (ns.flatMap freemindNodeLines ++ tail))
      parsePhraseLine_endNode
    rw [List.flatMap_cons, freemindNodeLines]
    simp only [List.cons_append, List.append_assoc, List.singleton_append,
      List.nil_append]
    simp only [parseFreeMindNodes_cons, parsePhraseLine_start, parseStartLine_start]
    rw [hrest]
    simp only [stringMk_data]
    simp only [parseFreeMindNodes_cons, parsePhraseLine_endNode,
      parseStartLine_endNode, ih]

/-- C6: for every mindmap whose node titles do not begin with two spaces,
re-parsing the Mermaid output and re-parsing the FreeMind output both
recover exactly the node list — the same (title, keyphrases) per node — so
the two serialized formats are equivalent renderings of the same node
tree. -/
theorem mindmap_formats_roundtrip (m : Mindmap)
    (h : ∀ n ∈ m.nodes, n.title.data.take 2 ≠ [' ', ' ']) :
    parseMermaid (renderMermaid m) = m.nodes ∧
    parseFreeMind (renderFreeMind m) = m.nodes ∧
    parseMermaid (renderMermaid m) = parseFreeMind (renderFreeMind m) := by
  have hm : parseMermaid (renderMermaid m) = m.nodes := by
    unfold parseMermaid renderMermaid
    rw [parseMermaidNodes]
    rw [show dropPref spaces6 mmHeader = none from rfl]
    rw [show dropPref spaces4 mmHeader = none from rfl]
    rw [parseMermaidNodes]
    have r6 : dropPref spaces6 (mmRootOpen ++ m.rootTitle.data ++ mmRootClose) =
        none := by
      simp [mmRootOpen, spaces6, dropPref, List.append_assoc]
    have r4 : dropPref spaces4 (mmRootOpen ++ m.rootTitle.data ++ mmRootClose) =
        none := by
      simp [mmRootOpen, spaces4, dropPref, List.append_assoc]
    rw [r6, r4]
    exact parseMermaidNodes_flatMap m.nodes fun n hn =>
      dropPref_spaces6_title n.title (h n hn)
  have hf : parseFreeMind (renderFreeMind m) = m.nodes := by
    show parseFreeMindNodes (m.nodes.flatMap freemindNodeLines ++
      [fmEndNode, fmEndMap]) = m.nodes
    rw [parseFreeMindNodes_flatMap]
    rw [show parseFreeMindNodes [fmEndNode, fmEndMap] = [] from ?_]
    · simp
    · rw [parseFreeMindNodes, parsePhraseLine_endNode, parseStartLine_endNode,
        parseFreeMindNodes, parsePhraseLine_endMap, parseStartLine_endMap,
        parseFreeMindNodes]
  exact ⟨hm, hf, hm.trans hf.symm⟩

/-- Witness for C6 at a concrete two-node mindmap. -/
theorem mindmap_formats_roundtrip_witness :
    parseMermaid (renderMermaid
        ⟨"Doc", [⟨"Intro", ["alpha", "beta"]⟩, ⟨"Body", []⟩]⟩) =
      [⟨"Intro", ["alpha", "beta"]⟩, ⟨"Body", []⟩] ∧
    parseFreeMind (renderFreeMind
        ⟨"Doc", [⟨"Intro", ["alpha", "beta"]⟩, ⟨"Body", []⟩]⟩) =
      [⟨"Intro", ["alpha", "beta"]⟩, ⟨"Body", []⟩] :=
  ⟨(mindmap_formats_roundtrip
      ⟨"Doc", [⟨"Intro", ["alpha", "beta"]⟩, ⟨"Body", []⟩]⟩ (by decide)).1,
   (mindmap_formats_roundtrip
      ⟨"Doc", [⟨"Intro", ["alpha", "beta"]⟩, ⟨"Body", []⟩]⟩ (by decide)).2.1⟩

end Spec2Proof
